import Mathlib

/-!
Shallow embedding of `importdatafromgooglesheets.py` (class `SheetsETL`).

The program reads rows from Google-Sheets ranges, normalizes each row
against the header row, and calls a MySQL stored procedure per row with
commit-or-rollback per row.  Pure helpers (`_parse_date`, the inline row
padding and header-indexed field extraction) are embedded as Lean
functions; the effectful processors are embedded as functions producing
an event trace, the list of committed stored-procedure calls, and the
next value of the uuid draw counter.  External failure points
(HTTP read error, cursor creation error, per-row store-call/commit
error) are supplied as boolean oracles; `uuid.uuid4` is modelled as a
draw from an abstract stream `uuids : Nat → String` indexed by a counter
that advances once per draw.
-/

namespace SheetsETL

/-- Dynamically-typed values passed as positional arguments to the
stored procedures: the code passes strings, Python ints (row position,
the `0` default for `Total Rooms`), and `None` (failed date parse,
absent `CSA ID`). -/
inductive Value
  | str (s : String)
  | int (n : Int)
  | null
deriving DecidableEq, Repr

/-! ### Date parsing: `_parse_date`

`_parse_date` tries `datetime.strptime(date_str, fmt)` for
`fmt ∈ ['%Y-%m-%d', '%m/%d/%Y', '%d/%m/%Y']` in order, swallowing
`ValueError`, and renders the first success with
`strftime('%Y-%m-%d')`; empty input and no-match both yield `None`.

CPython's `_strptime` compiles each directive to a regex fragment:
`%Y ↦ \d\d\d\d`, `%m ↦ 1[0-2]|0[1-9]|[1-9]`,
`%d ↦ 3[01]|[12]\d|0[1-9]|[1-9]`, anchored and required to consume the
whole string, with regex-alternation order and backtracking; the
`datetime` constructor then validates the calendar date
(`ValueError` on e.g. Feb 30 or year 0).  The candidate lists below
reproduce the alternation order, and the matchers backtrack by trying
candidates in order via `List.findSome?`. -/

/-- Numeric value of a decimal digit character. -/
def digitVal (c : Char) : Nat := c.toNat - '0'.toNat

/-- Candidates for the regex fragment `1[0-2]|0[1-9]|[1-9]` (`%m`),
in alternation order, each with the remaining input. -/
def monthCandidates : List Char → List (Nat × List Char)
  | c1 :: c2 :: rest =>
      (if c1 = '1' ∧ '0' ≤ c2 ∧ c2 ≤ '2' then [(10 + digitVal c2, rest)] else []) ++
      (if c1 = '0' ∧ '1' ≤ c2 ∧ c2 ≤ '9' then [(digitVal c2, rest)] else []) ++
      (if '1' ≤ c1 ∧ c1 ≤ '9' then [(digitVal c1, c2 :: rest)] else [])
  | [c1] => if '1' ≤ c1 ∧ c1 ≤ '9' then [(digitVal c1, [])] else []
  | [] => []

/-- Candidates for the regex fragment `3[01]|[12]\d|0[1-9]|[1-9]` (`%d`),
in alternation order, each with the remaining input. -/
def dayCandidates : List Char → List (Nat × List Char)
  | c1 :: c2 :: rest =>
      (if c1 = '3' ∧ (c2 = '0' ∨ c2 = '1') then [(30 + digitVal c2, rest)] else []) ++
      (if (c1 = '1' ∨ c1 = '2') ∧ c2.isDigit then [(10 * digitVal c1 + digitVal c2, rest)] else []) ++
      (if c1 = '0' ∧ '1' ≤ c2 ∧ c2 ≤ '9' then [(digitVal c2, rest)] else []) ++
      (if '1' ≤ c1 ∧ c1 ≤ '9' then [(digitVal c1, c2 :: rest)] else [])
  | [c1] => if '1' ≤ c1 ∧ c1 ≤ '9' then [(digitVal c1, [])] else []
  | [] => []

/-- The regex fragment `\d\d\d\d` (`%Y`): exactly four digits. -/
def yearCandidate : List Char → Option (Nat × List Char)
  | c1 :: c2 :: c3 :: c4 :: rest =>
      if c1.isDigit ∧ c2.isDigit ∧ c3.isDigit ∧ c4.isDigit then
        some (1000 * digitVal c1 + 100 * digitVal c2 + 10 * digitVal c3 + digitVal c4, rest)
      else none
  | _ => none

/-- A literal format character (the separators `-` and `/`). -/
def litCandidate (ch : Char) : List Char → Option (List Char)
  | c :: rest => if c = ch then some rest else none
  | [] => none

/-- Regex match of the whole input against `%Y-%m-%d`. -/
def matchYMD (cs : List Char) : Option (Nat × Nat × Nat) :=
  match yearCandidate cs with
  | none => none
  | some (y, r1) =>
    match litCandidate '-' r1 with
    | none => none
    | some r2 =>
      (monthCandidates r2).findSome? fun mc =>
        match litCandidate '-' mc.2 with
        | none => none
        | some r3 =>
          (dayCandidates r3).findSome? fun dc =>
            if dc.2 = [] then some (y, mc.1, dc.1) else none

/-- Regex match of the whole input against `%m/%d/%Y`. -/
def matchMDY (cs : List Char) : Option (Nat × Nat × Nat) :=
  (monthCandidates cs).findSome? fun mc =>
    match litCandidate '/' mc.2 with
    | none => none
    | some r1 =>
      (dayCandidates r1).findSome? fun dc =>
        match litCandidate '/' dc.2 with
        | none => none
        | some r2 =>
          match yearCandidate r2 with
          | some (y, []) => some (y, mc.1, dc.1)
          | _ => none

/-- Regex match of the whole input against `%d/%m/%Y`. -/
def matchDMY (cs : List Char) : Option (Nat × Nat × Nat) :=
  (dayCandidates cs).findSome? fun dc =>
    match litCandidate '/' dc.2 with
    | none => none
    | some r1 =>
      (monthCandidates r1).findSome? fun mc =>
        match litCandidate '/' mc.2 with
        | none => none
        | some r2 =>
          match yearCandidate r2 with
          | some (y, []) => some (y, mc.1, dc.1)
          | _ => none

/-- Proleptic-Gregorian leap year, as Python's `datetime` uses. -/
def isLeapYear (y : Nat) : Bool := y % 4 = 0 ∧ (y % 100 ≠ 0 ∨ y % 400 = 0)

/-- Number of days in a month. -/
def daysInMonth (y m : Nat) : Nat :=
  if m = 2 then (if isLeapYear y then 29 else 28)
  else if m = 4 ∨ m = 6 ∨ m = 9 ∨ m = 11 then 30
  else 31

/-- Validation performed by the `datetime` constructor
(`MINYEAR = 1 ≤ year ≤ MAXYEAR = 9999`, day in range for the month;
the regex already bounds month and day from below). -/
def validDate (y m d : Nat) : Bool :=
  1 ≤ y ∧ y ≤ 9999 ∧ 1 ≤ m ∧ m ≤ 12 ∧ 1 ≤ d ∧ d ≤ daysInMonth y m

/-- The three accepted input formats, in the order the code tries them. -/
inductive DateFmt
  | ymd
  | mdy
  | dmy
deriving DecidableEq, Repr

/-- Embeds `datetime.strptime(s, fmt)` for one of the three formats:
full-string regex match, then calendar validation. -/
def strptime (s : String) (fmt : DateFmt) : Option (Nat × Nat × Nat) :=
  let r := match fmt with
    | .ymd => matchYMD s.data
    | .mdy => matchMDY s.data
    | .dmy => matchDMY s.data
  match r with
  | some (y, m, d) => if validDate y m d then some (y, m, d) else none
  | none => none

/-- Zero-pad a number to a given width. -/
def padZero (w n : Nat) : String :=
  let s := toString n
  String.mk (List.replicate (w - s.length) '0') ++ s

/-- Embeds `strftime('%Y-%m-%d')`, rendered with the canonical zero padding
(4-digit year, 2-digit month and day). -/
def strftimeYMD : Nat × Nat × Nat → String
  | (y, m, d) => padZero 4 y ++ "-" ++ padZero 2 m ++ "-" ++ padZero 2 d

/-- Embeds `SheetsETL._parse_date`: `None` on empty (falsy) input, otherwise
the first format in `['%Y-%m-%d', '%m/%d/%Y', '%d/%m/%Y']` that parses
the whole string wins and is re-rendered as `%Y-%m-%d`; `None` when no
format matches.  Total: the Python body swallows every exception. -/
def parse_date (date_str : String) : Option String :=
  if date_str = "" then none
  else
    match [DateFmt.ymd, DateFmt.mdy, DateFmt.dmy].findSome? (fun fmt => strptime date_str fmt) with
    | some ymd => some (strftimeYMD ymd)
    | none => none

/-- The value the processors pass for a date field: the parsed string,
or SQL `NULL` for Python `None`. -/
def dateValue (s : String) : Value :=
  match parse_date s with
  | some d => Value.str d
  | none => Value.null

example : parse_date "2024-03-15" = some "2024-03-15" := by decide
example : parse_date "03/15/2024" = some "2024-03-15" := by decide
example : parse_date "15/03/2024" = some "2024-03-15" := by decide
example : parse_date "05/04/2024" = some "2024-05-04" := by decide
example : parse_date "" = none := by decide
example : parse_date "not-a-date" = none := by decide
example : parse_date "2024-02-30" = none := by decide
example : parse_date "2024-1-5" = some "2024-01-05" := by decide

/-! ### Row normalization and header-indexed field extraction

Each processor runs, inline, per data row:
`row_data = row + [''] * (len(headers) - len(row))` and then
`row_data[headers.index(name)] if name in headers else default`
per recognized field name.  Python's `list * k` is empty for `k ≤ 0`
(matching `Nat` subtraction), and `row_data[i]` raises `IndexError`
when out of bounds, so extraction is embedded in `Except`. -/

/-- Embeds `row + [''] * (len(headers) - len(row))`: pad the row on the right
with empty strings up to header length; rows at least header-long are
unchanged (the repetition count is non-positive). -/
def normalizeRow (headers row : List String) : List String :=
  row ++ List.replicate (headers.length - row.length) ""

/-- Embeds `row_data[headers.index(name)] if name in headers else default`
for a string-typed default (`''`).  `Except.error` models the
`IndexError` Python raises when the index is out of bounds. -/
def getFieldStr (headers row_data : List String) (name dflt : String) :
    Except String String :=
  if name ∈ headers then
    match row_data.get? (headers.indexOf name) with
    | some v => Except.ok v
    | none => Except.error "IndexError"
  else Except.ok dflt

/-- The same extraction pattern with a non-string default
(`0` for `Total Rooms`, `None` for `CSA ID`): a present column yields
the cell string, an absent column yields the default value. -/
def getFieldD (headers row_data : List String) (name : String) (dflt : Value) :
    Except String Value :=
  if name ∈ headers then
    match row_data.get? (headers.indexOf name) with
    | some v => Except.ok (Value.str v)
    | none => Except.error "IndexError"
  else Except.ok dflt

/-- Total description of string-field extraction on the padded row,
used to state what the processors pass to the store. -/
def extractTotal (headers row : List String) (name dflt : String) : String :=
  if name ∈ headers then (normalizeRow headers row).getD (headers.indexOf name) "" else dflt

/-- Total description of default-valued field extraction on the padded
row. -/
def extractTotalD (headers row : List String) (name : String) (dflt : Value) : Value :=
  if name ∈ headers then Value.str ((normalizeRow headers row).getD (headers.indexOf name) "")
  else dflt

/-! ### Effect model: events, gateway, processors -/

/-- Observable effects of a run, in program order. -/
inductive Ev
  | apiRead (sheetId rangeName : String)
  | logError
  | logInfo
  | callproc (procName : String) (args : List Value)
  | commit
  | rollback
  | cursorClose
  | closeConn
deriving DecidableEq, Repr

/-- Embeds `SheetsETL.read_sheet`: blank id or range logs an error and
returns `[]` without touching the API; an `HttpError` during the API
call (oracle `httpFail`) logs an error and returns `[]`; otherwise the
sheet's values are returned.  First component: the returned rows;
second: the events emitted. -/
def read_sheet (spreadsheet_id range_name : String) (values : List (List String))
    (httpFail : Bool) : List (List String) × List Ev :=
  if spreadsheet_id = "" ∨ range_name = "" then ([], [Ev.logError])
  else if httpFail then ([], [Ev.apiRead spreadsheet_id range_name, Ev.logError])
  else (values, [Ev.apiRead spreadsheet_id range_name])

/-- Processing of one data row inside a processor's `for` loop:
build the argument tuple (a raised `IndexError` is caught by the row's
`except Exception`, which logs and rolls back), draw `uuid.uuid4()`
(before field extraction in the building/incident processors,
`uuidFirst = true`; after it in the travel processor), call the stored
procedure, and commit — or, when the store call/fetch/commit raises
(oracle `fail`), log and roll back.  Returns the number of uuid draws,
the events, and the committed calls of this row. -/
def runFormRow (procName : String) (argsTail : Except String (List Value))
    (uuidFirst : Bool) (uuids : Nat → String) (fail : Bool) (u : Nat) :
    Nat × List Ev × List (String × List Value) :=
  match argsTail with
  | .error _ => (if uuidFirst then 1 else 0, [Ev.logError, Ev.rollback], [])
  | .ok tail =>
      let args := Value.str (uuids u) :: tail
      if fail then (1, [Ev.callproc procName args, Ev.logError, Ev.rollback], [])
      else (1, [Ev.callproc procName args, Ev.commit, Ev.logInfo], [(procName, args)])

/-- The `for row in source_data[1:]` loop: rows are processed in order,
each with its own try/except, so one row's outcome never interrupts the
rest.  `i` is the 0-based index of the row among the data rows
(indexing the per-row store-failure oracle) and `u` the uuid counter.
Returns the final uuid counter, the concatenated events, and the
concatenated committed calls. -/
def runFormRows (procName : String) (mkArgs : List String → Except String (List Value))
    (uuidFirst : Bool) (uuids : Nat → String) (storeFail : Nat → Bool) :
    List (List String) → Nat → Nat → Nat × List Ev × List (String × List Value)
  | [], _, u => (u, [], [])
  | row :: rest, i, u =>
      let r := runFormRow procName (mkArgs row) uuidFirst uuids (storeFail i) u
      let rec' := runFormRows procName mkArgs uuidFirst uuids storeFail rest (i + 1) (u + r.1)
      (rec'.1, r.2.1 ++ rec'.2.1, r.2.2 ++ rec'.2.2)

/-- Result of one processor invocation (or of the whole batch). -/
structure RunResult where
  nextUuid : Nat
  events : List Ev
  committed : List (String × List Value)
deriving DecidableEq, Repr

/-- Shared shape of `process_travel_data` / `process_building_data` /
`process_incident_data`: a blank configured sheet id logs an error and
returns before any read; an empty read result logs an informational
message and returns before any store interaction; otherwise
`source_data[0]` is the header, a prepared cursor is created
(oracle `cursorFail`: the cursor call raises and the processor's
top-level `except Exception` logs the error and returns), the data rows
are processed one by one, and the cursor is closed. -/
def runFormProcessor (procName sheetId rangeName : String) (values : List (List String))
    (httpFail cursorFail : Bool)
    (mkArgs : List (List String) → List String → List String → Except String (List Value))
    (uuidFirst : Bool) (storeFail : Nat → Bool) (uuids : Nat → String) (u0 : Nat) :
    RunResult :=
  if sheetId = "" then ⟨u0, [Ev.logError], []⟩
  else
    let rd := read_sheet sheetId rangeName values httpFail
    match rd.1 with
    | [] => ⟨u0, rd.2 ++ [Ev.logInfo], []⟩
    | headers :: rows =>
        if cursorFail then ⟨u0, rd.2 ++ [Ev.logError], []⟩
        else
          let r := runFormRows procName (mkArgs (headers :: rows) headers)
            uuidFirst uuids storeFail rows 0 u0
          ⟨r.1, rd.2 ++ r.2.1 ++ [Ev.cursorClose], r.2.2⟩

/-- Configured source of one form kind: sheet id and range expression. -/
structure FormCfg where
  sheetId : String
  rangeName : String
deriving DecidableEq, Repr

/-- The field values (after the provenance arguments) that the travel
processor passes, described totally on the padded row. -/
def travelFields (headers row : List String) : List Value :=
  [Value.str (extractTotal headers row "Name" ""),
   Value.str (extractTotal headers row "Email" ""),
   Value.str (extractTotal headers row "Department" ""),
   Value.str (extractTotal headers row "Destination" ""),
   dateValue (extractTotal headers row "Start Date" ""),
   dateValue (extractTotal headers row "End Date" ""),
   Value.str (extractTotal headers row "Purpose" "")]

/-- Argument tuple of `process_travel_form` after `response_id`:
source sheet id, source range, `source_data.index(row) + 1`, then the
extracted fields with dates parsed.  Mirrors lines 118–142 of the
source; a raised `IndexError` propagates via `Except`. -/
def travelArgsTail (cfg : FormCfg) (source_data : List (List String))
    (headers row : List String) : Except String (List Value) := do
  let row_data := normalizeRow headers row
  let name ← getFieldStr headers row_data "Name" ""
  let email ← getFieldStr headers row_data "Email" ""
  let department ← getFieldStr headers row_data "Department" ""
  let destination ← getFieldStr headers row_data "Destination" ""
  let start_raw ← getFieldStr headers row_data "Start Date" ""
  let end_raw ← getFieldStr headers row_data "End Date" ""
  let purpose ← getFieldStr headers row_data "Purpose" ""
  return [Value.str cfg.sheetId, Value.str cfg.rangeName,
    Value.int ((source_data.indexOf row : Nat) + 1 : Int),
    Value.str name, Value.str email, Value.str department, Value.str destination,
    dateValue start_raw, dateValue end_raw, Value.str purpose]

/-- The field values the building processor passes, described totally. -/
def buildingFields (headers row : List String) : List Value :=
  [Value.str (extractTotal headers row "Building Name" ""),
   Value.str (extractTotal headers row "Address" ""),
   extractTotalD headers row "Total Rooms" (Value.int 0)]

/-- Argument tuple of `process_building_form` after `response_id`
(lines 185–199 of the source; `Total Rooms` defaults to the int `0`). -/
def buildingArgsTail (cfg : FormCfg) (source_data : List (List String))
    (headers row : List String) : Except String (List Value) := do
  let row_data := normalizeRow headers row
  let name ← getFieldStr headers row_data "Building Name" ""
  let address ← getFieldStr headers row_data "Address" ""
  let total_rooms ← getFieldD headers row_data "Total Rooms" (Value.int 0)
  return [Value.str cfg.sheetId, Value.str cfg.rangeName,
    Value.int ((source_data.indexOf row : Nat) + 1 : Int),
    Value.str name, Value.str address, total_rooms]

/-- The field values the incident processor passes, described totally. -/
def incidentFields (headers row : List String) : List Value :=
  [extractTotalD headers row "CSA ID" Value.null,
   Value.str (extractTotal headers row "Incident Type" ""),
   Value.str (extractTotal headers row "Location" "")]

/-- Argument tuple of `process_incident_form` after `response_id`
(lines 242–256 of the source; `CSA ID` defaults to `None`). -/
def incidentArgsTail (cfg : FormCfg) (source_data : List (List String))
    (headers row : List String) : Except String (List Value) := do
  let row_data := normalizeRow headers row
  let csa_id ← getFieldD headers row_data "CSA ID" Value.null
  let incident_type ← getFieldStr headers row_data "Incident Type" ""
  let location ← getFieldStr headers row_data "Location" ""
  return [Value.str cfg.sheetId, Value.str cfg.rangeName,
    Value.int ((source_data.indexOf row : Nat) + 1 : Int),
    csa_id, Value.str incident_type, Value.str location]

/-- Embeds `SheetsETL.process_travel_data`.  `response_id` is drawn after
field extraction (line 128), hence `uuidFirst = false`. -/
def process_travel_data (cfg : FormCfg) (values : List (List String))
    (httpFail cursorFail : Bool) (storeFail : Nat → Bool) (uuids : Nat → String)
    (u0 : Nat) : RunResult :=
  runFormProcessor "process_travel_form" cfg.sheetId cfg.rangeName values
    httpFail cursorFail (travelArgsTail cfg) false storeFail uuids u0

/-- Embeds `SheetsETL.process_building_data`.  `response_id` is drawn before
field extraction (line 184), hence `uuidFirst = true`. -/
def process_building_data (cfg : FormCfg) (values : List (List String))
    (httpFail cursorFail : Bool) (storeFail : Nat → Bool) (uuids : Nat → String)
    (u0 : Nat) : RunResult :=
  runFormProcessor "process_building_form" cfg.sheetId cfg.rangeName values
    httpFail cursorFail (buildingArgsTail cfg) true storeFail uuids u0

/-- Embeds `SheetsETL.process_incident_data`.  `response_id` is drawn before
field extraction (line 241), hence `uuidFirst = true`. -/
def process_incident_data (cfg : FormCfg) (values : List (List String))
    (httpFail cursorFail : Bool) (storeFail : Nat → Bool) (uuids : Nat → String)
    (u0 : Nat) : RunResult :=
  runFormProcessor "process_incident_form" cfg.sheetId cfg.rangeName values
    httpFail cursorFail (incidentArgsTail cfg) true storeFail uuids u0

/-- Embeds `SheetsETL.process_all_data`: the three processors in fixed order,
the completion log, then the `finally` block closing the database
connection (open at entry — `__init__` raised otherwise — and touched
by nothing else, so `is_connected()` holds) and logging the closure.
Each processor wraps its whole body in `except Exception`, so the
orchestrator's own `except` is unreachable for `Exception`-level
faults; the processors are total here for the same reason. -/
def process_all_data (tcfg bcfg icfg : FormCfg)
    (tvals bvals ivals : List (List String))
    (thttp bhttp ihttp tcur bcur icur : Bool)
    (tfail bfail ifail : Nat → Bool) (uuids : Nat → String) (u0 : Nat) : RunResult :=
  let t := process_travel_data tcfg tvals thttp tcur tfail uuids u0
  let b := process_building_data bcfg bvals bhttp bcur bfail uuids t.nextUuid
  let i := process_incident_data icfg ivals ihttp icur ifail uuids b.nextUuid
  ⟨i.nextUuid,
   t.events ++ b.events ++ i.events ++ [Ev.logInfo, Ev.closeConn, Ev.logInfo],
   t.committed ++ b.committed ++ i.committed⟩

/-! ### Observation helpers -/

/-- Event is a stored-procedure call. -/
def isCallproc : Ev → Bool
  | .callproc _ _ => true
  | _ => false

/-- Event is a stored-procedure call of the given procedure. -/
def isCallprocNamed (procName : String) : Ev → Bool
  | .callproc q _ => q == procName
  | _ => false

/-- Event is a per-row commit. -/
def isCommit : Ev → Bool
  | .commit => true
  | _ => false

/-- Event is a per-row rollback. -/
def isRollback : Ev → Bool
  | .rollback => true
  | _ => false

/-- Event is the release of the database connection. -/
def isCloseConn : Ev → Bool
  | .closeConn => true
  | _ => false

/-- Event is a spreadsheet read. -/
def isApiRead : Ev → Bool
  | .apiRead _ _ => true
  | _ => false

/-- The record identities submitted to the store: the first positional
argument of every stored-procedure call in the trace. -/
def callIds : List Ev → List String :=
  List.filterMap fun e =>
    match e with
    | .callproc _ (Value.str rid :: _) => some rid
    | _ => none

/-! ### Laws of normalization and extraction -/

/-- The padded row is at least header-long. -/
theorem length_normalizeRow_ge (headers row : List String) :
    headers.length ≤ (normalizeRow headers row).length := by
  simp [normalizeRow]
  omega

/-- On the padded row, string-field extraction never raises and agrees
with its total description. -/
theorem getFieldStr_normalize (headers row : List String) (name dflt : String) :
    getFieldStr headers (normalizeRow headers row) name dflt =
      Except.ok (extractTotal headers row name dflt) := by
  by_cases h : name ∈ headers
  · have hlt : headers.indexOf name < (normalizeRow headers row).length :=
      lt_of_lt_of_le (List.indexOf_lt_length.2 h) (length_normalizeRow_ge headers row)
    rcases hv : (normalizeRow headers row).get? (headers.indexOf name) with _ | v
    · rw [List.get?_eq_none] at hv
      omega
    · rw [List.get?_eq_getElem?] at hv
      simp [getFieldStr, extractTotal, h, hv]
  · simp [getFieldStr, extractTotal, h]

/-- On the padded row, default-valued field extraction never raises and
agrees with its total description. -/
theorem getFieldD_normalize (headers row : List String) (name : String) (dflt : Value) :
    getFieldD headers (normalizeRow headers row) name dflt =
      Except.ok (extractTotalD headers row name dflt) := by
  by_cases h : name ∈ headers
  · have hlt : headers.indexOf name < (normalizeRow headers row).length :=
      lt_of_lt_of_le (List.indexOf_lt_length.2 h) (length_normalizeRow_ge headers row)
    rcases hv : (normalizeRow headers row).get? (headers.indexOf name) with _ | v
    · rw [List.get?_eq_none] at hv
      omega
    · rw [List.get?_eq_getElem?] at hv
      simp [getFieldD, extractTotalD, h, hv]
  · simp [getFieldD, extractTotalD, h]

/-- The travel argument tuple never raises: its value on every row. -/
theorem travelArgsTail_eq (cfg : FormCfg) (source_data : List (List String))
    (headers row : List String) :
    travelArgsTail cfg source_data headers row =
      Except.ok (Value.str cfg.sheetId :: Value.str cfg.rangeName ::
        Value.int ((source_data.indexOf row : Nat) + 1 : Int) :: travelFields headers row) := by
  simp [travelArgsTail, getFieldStr_normalize, travelFields, bind, Except.bind, pure, Except.pure]

/-- The building argument tuple never raises: its value on every row. -/
theorem buildingArgsTail_eq (cfg : FormCfg) (source_data : List (List String))
    (headers row : List String) :
    buildingArgsTail cfg source_data headers row =
      Except.ok (Value.str cfg.sheetId :: Value.str cfg.rangeName ::
        Value.int ((source_data.indexOf row : Nat) + 1 : Int) :: buildingFields headers row) := by
  simp [buildingArgsTail, getFieldStr_normalize, getFieldD_normalize, buildingFields,
    bind, Except.bind, pure, Except.pure]

/-- The incident argument tuple never raises: its value on every row. -/
theorem incidentArgsTail_eq (cfg : FormCfg) (source_data : List (List String))
    (headers row : List String) :
    incidentArgsTail cfg source_data headers row =
      Except.ok (Value.str cfg.sheetId :: Value.str cfg.rangeName ::
        Value.int ((source_data.indexOf row : Nat) + 1 : Int) :: incidentFields headers row) := by
  simp [incidentArgsTail, getFieldStr_normalize, getFieldD_normalize, incidentFields,
    bind, Except.bind, pure, Except.pure]


/-! ### Laws of the row loop -/

section LoopLaws

variable (procName : String) (mkArgs : List String → Except String (List Value))
variable (uuidFirst : Bool) (uuids : Nat → String) (storeFail : Nat → Bool)

/-- When no row's argument construction raises, every row draws exactly
one fresh identity: the loop advances the uuid counter by the number of
rows. -/
theorem runFormRows_nextUuid (hmk : ∀ row, ∃ t, mkArgs row = Except.ok t)
    (rows : List (List String)) : ∀ i u : Nat,
    (runFormRows procName mkArgs uuidFirst uuids storeFail rows i u).1 = u + rows.length := by
  induction rows with
  | nil => intro i u; simp [runFormRows]
  | cons row rest ih =>
      intro i u
      obtain ⟨t, ht⟩ := hmk row
      cases hsf : storeFail i <;> simp [runFormRows, runFormRow, ht, hsf, ih] <;> omega

/-- The identities submitted by the loop are the uuid stream evaluated
at the consecutive counters `u, u + 1, …`, one per row, committed or
not. -/
theorem runFormRows_callIds (hmk : ∀ row, ∃ t, mkArgs row = Except.ok t)
    (rows : List (List String)) : ∀ i u : Nat,
    callIds (runFormRows procName mkArgs uuidFirst uuids storeFail rows i u).2.1 =
      (List.range' u rows.length).map uuids := by
  induction rows with
  | nil => intro i u; simp [runFormRows, callIds]
  | cons row rest ih =>
      intro i u
      obtain ⟨t, ht⟩ := hmk row
      cases hsf : storeFail i <;>
        simp [runFormRows, runFormRow, ht, hsf, callIds, List.filterMap_append,
          List.range'_succ] <;>
        exact ih (i + 1) (u + 1)

/-- Every row produces exactly one stored-procedure call: a failing row
does not stop the loop. -/
theorem runFormRows_countCall (hmk : ∀ row, ∃ t, mkArgs row = Except.ok t)
    (rows : List (List String)) : ∀ i u : Nat,
    ((runFormRows procName mkArgs uuidFirst uuids storeFail rows i u).2.1.countP isCallproc) =
      rows.length := by
  induction rows with
  | nil => intro i u; simp [runFormRows]
  | cons row rest ih =>
      intro i u
      obtain ⟨t, ht⟩ := hmk row
      cases hsf : storeFail i <;>
        simp [runFormRows, runFormRow, ht, hsf, List.countP_cons, isCallproc, ih]

/-- One commit per row whose store call succeeds. -/
theorem runFormRows_countCommit (hmk : ∀ row, ∃ t, mkArgs row = Except.ok t)
    (rows : List (List String)) : ∀ i u : Nat,
    ((runFormRows procName mkArgs uuidFirst uuids storeFail rows i u).2.1.countP isCommit) =
      ((List.range' i rows.length).countP fun k => !storeFail k) := by
  induction rows with
  | nil => intro i u; simp [runFormRows]
  | cons row rest ih =>
      intro i u
      obtain ⟨t, ht⟩ := hmk row
      cases hsf : storeFail i <;>
        simp [runFormRows, runFormRow, ht, hsf, List.countP_cons, isCommit, ih,
          List.range'_succ]

/-- One rollback per row whose store call raises. -/
theorem runFormRows_countRollback (hmk : ∀ row, ∃ t, mkArgs row = Except.ok t)
    (rows : List (List String)) : ∀ i u : Nat,
    ((runFormRows procName mkArgs uuidFirst uuids storeFail rows i u).2.1.countP isRollback) =
      ((List.range' i rows.length).countP fun k => storeFail k) := by
  induction rows with
  | nil => intro i u; simp [runFormRows]
  | cons row rest ih =>
      intro i u
      obtain ⟨t, ht⟩ := hmk row
      cases hsf : storeFail i <;>
        simp [runFormRows, runFormRow, ht, hsf, List.countP_cons, isRollback, ih,
          List.range'_succ]

/-- One committed record per row whose store call succeeds, none for a
failing row. -/
theorem runFormRows_committed_length (hmk : ∀ row, ∃ t, mkArgs row = Except.ok t)
    (rows : List (List String)) : ∀ i u : Nat,
    ((runFormRows procName mkArgs uuidFirst uuids storeFail rows i u).2.2.length) =
      ((List.range' i rows.length).countP fun k => !storeFail k) := by
  induction rows with
  | nil => intro i u; simp [runFormRows]
  | cons row rest ih =>
      intro i u
      obtain ⟨t, ht⟩ := hmk row
      cases hsf : storeFail i <;>
        simp [runFormRows, runFormRow, ht, hsf, ih, List.range'_succ]

/-- Calls emitted by the loop all name its own procedure. -/
theorem runFormRows_countNamed_other (hmk : ∀ row, ∃ t, mkArgs row = Except.ok t)
    (rows : List (List String)) (q : String) (hq : procName ≠ q) : ∀ i u : Nat,
    ((runFormRows procName mkArgs uuidFirst uuids storeFail rows i u).2.1.countP
      (isCallprocNamed q)) = 0 := by
  induction rows with
  | nil => intro i u; simp [runFormRows]
  | cons row rest ih =>
      intro i u
      obtain ⟨t, ht⟩ := hmk row
      cases hsf : storeFail i <;>
        simp [runFormRows, runFormRow, ht, hsf, List.countP_cons, isCallprocNamed, hq, ih]

/-- The loop emits one call of its own procedure per row. -/
theorem runFormRows_countNamed_self (hmk : ∀ row, ∃ t, mkArgs row = Except.ok t)
    (rows : List (List String)) : ∀ i u : Nat,
    ((runFormRows procName mkArgs uuidFirst uuids storeFail rows i u).2.1.countP
      (isCallprocNamed procName)) = rows.length := by
  induction rows with
  | nil => intro i u; simp [runFormRows]
  | cons row rest ih =>
      intro i u
      obtain ⟨t, ht⟩ := hmk row
      cases hsf : storeFail i <;>
        simp [runFormRows, runFormRow, ht, hsf, List.countP_cons, isCallprocNamed, ih]

/-- The loop never releases the database connection. -/
theorem runFormRows_countClose (rows : List (List String)) : ∀ i u : Nat,
    ((runFormRows procName mkArgs uuidFirst uuids storeFail rows i u).2.1.countP isCloseConn) =
      0 := by
  induction rows with
  | nil => intro i u; simp [runFormRows]
  | cons row rest ih =>
      intro i u
      rcases ht : mkArgs row with e | t <;>
        cases hsf : storeFail i <;>
        simp [runFormRows, runFormRow, ht, hsf, List.countP_cons, isCloseConn, ih]

/-- A successful row's committed record: its identity is the uuid
stream at `u + k` for the `k`-th data row, followed by the row's
argument tail. -/
theorem runFormRows_commit_mem (hmk : ∀ row, ∃ t, mkArgs row = Except.ok t)
    (rows : List (List String)) : ∀ (i u k : Nat) (row : List String) (t : List Value),
    rows.get? k = some row → storeFail (i + k) = false → mkArgs row = Except.ok t →
    (procName, Value.str (uuids (u + k)) :: t) ∈
      (runFormRows procName mkArgs uuidFirst uuids storeFail rows i u).2.2 := by
  induction rows with
  | nil => intro i u k row t hget; simp at hget
  | cons row0 rest ih =>
      intro i u k row t hget hsf ht
      cases k with
      | zero =>
          simp at hget
          subst hget
          simp at hsf
          simp [runFormRows, runFormRow, ht, hsf]
      | succ k' =>
          rw [List.get?_cons_succ] at hget
          obtain ⟨t0, ht0⟩ := hmk row0
          have hsf' : storeFail (i + 1 + k') = false := by
            have hik : i + 1 + k' = i + (k' + 1) := by omega
            rw [hik]
            exact hsf
          have hmem := ih (i + 1) (u + 1) k' row t hget hsf' ht
          have huk : u + 1 + k' = u + (k' + 1) := by omega
          rw [huk] at hmem
          cases hsf0 : storeFail i with
          | false =>
              simp only [runFormRows, runFormRow, ht0, hsf0, Bool.false_eq_true, if_neg,
                ite_false, List.mem_append, List.mem_singleton]
              right
              exact hmem
          | true =>
              simp only [runFormRows, runFormRow, ht0, hsf0, ite_true, List.nil_append,
                List.mem_append, List.not_mem_nil]
              exact hmem

end LoopLaws

/-! ### Laws of one processor invocation -/

/-- A successful read with both identifiers configured. -/
theorem read_sheet_ok (sid rng : String) (values : List (List String))
    (h1 : sid ≠ "") (h2 : rng ≠ "") :
    read_sheet sid rng values false = (values, [Ev.apiRead sid rng]) := by
  simp [read_sheet, h1, h2]

/-- The good path of a processor: configured id and range, successful
read of `headers :: rows`, cursor created — the run is the read event,
the row loop, and the cursor close. -/
theorem runFormProcessor_run (procName sid rng : String) (headers : List String)
    (rows : List (List String))
    (mkArgs : List (List String) → List String → List String → Except String (List Value))
    (uuidFirst : Bool) (storeFail : Nat → Bool) (uuids : Nat → String) (u0 : Nat)
    (h1 : sid ≠ "") (h2 : rng ≠ "") :
    runFormProcessor procName sid rng (headers :: rows) false false mkArgs uuidFirst
        storeFail uuids u0 =
      ⟨(runFormRows procName (mkArgs (headers :: rows) headers) uuidFirst uuids storeFail
          rows 0 u0).1,
       Ev.apiRead sid rng ::
         ((runFormRows procName (mkArgs (headers :: rows) headers) uuidFirst uuids storeFail
             rows 0 u0).2.1 ++ [Ev.cursorClose]),
       (runFormRows procName (mkArgs (headers :: rows) headers) uuidFirst uuids storeFail
          rows 0 u0).2.2⟩ := by
  simp [runFormProcessor, read_sheet, h1, h2]

/-- Whatever the configuration and failure oracles, a processor draws
its identities from a contiguous counter segment starting at `u0`, one
per attempted store call. -/
theorem runFormProcessor_ids (procName sid rng : String) (values : List (List String))
    (httpFail cursorFail : Bool)
    (mkArgs : List (List String) → List String → List String → Except String (List Value))
    (uuidFirst : Bool) (storeFail : Nat → Bool) (uuids : Nat → String) (u0 : Nat)
    (hmk : ∀ sd hd row, ∃ t, mkArgs sd hd row = Except.ok t) :
    ∃ n,
      (runFormProcessor procName sid rng values httpFail cursorFail mkArgs uuidFirst
          storeFail uuids u0).nextUuid = u0 + n ∧
      callIds (runFormProcessor procName sid rng values httpFail cursorFail mkArgs uuidFirst
          storeFail uuids u0).events = (List.range' u0 n).map uuids := by
  by_cases h1 : sid = ""
  · exact ⟨0, by simp [runFormProcessor, h1, callIds]⟩
  by_cases h2 : rng = ""
  · exact ⟨0, by simp [runFormProcessor, read_sheet, h1, h2, callIds]⟩
  cases httpFail with
  | true => exact ⟨0, by simp [runFormProcessor, read_sheet, h1, h2, callIds]⟩
  | false =>
      cases values with
      | nil => exact ⟨0, by simp [runFormProcessor, read_sheet, h1, h2, callIds]⟩
      | cons headers rows =>
          cases cursorFail with
          | true => exact ⟨0, by simp [runFormProcessor, read_sheet, h1, h2, callIds]⟩
          | false =>
              refine ⟨rows.length, ?_, ?_⟩
              · rw [runFormProcessor_run procName sid rng headers rows mkArgs uuidFirst
                  storeFail uuids u0 h1 h2]
                exact runFormRows_nextUuid procName _ uuidFirst uuids storeFail
                  (fun row => hmk _ _ row) rows 0 u0
              · rw [runFormProcessor_run procName sid rng headers rows mkArgs uuidFirst
                  storeFail uuids u0 h1 h2]
                have hloop := runFormRows_callIds procName _ uuidFirst uuids storeFail
                  (fun row => hmk (headers :: rows) headers row) rows 0 u0
                simp [callIds, List.filterMap_append] at hloop ⊢
                exact hloop

/-- A processor never releases the database connection. -/
theorem runFormProcessor_countClose (procName sid rng : String)
    (values : List (List String)) (httpFail cursorFail : Bool)
    (mkArgs : List (List String) → List String → List String → Except String (List Value))
    (uuidFirst : Bool) (storeFail : Nat → Bool) (uuids : Nat → String) (u0 : Nat) :
    ((runFormProcessor procName sid rng values httpFail cursorFail mkArgs uuidFirst
        storeFail uuids u0).events.countP isCloseConn) = 0 := by
  by_cases h1 : sid = ""
  · simp [runFormProcessor, h1, isCloseConn]
  by_cases h2 : rng = ""
  · simp [runFormProcessor, read_sheet, h1, h2, isCloseConn]
  cases httpFail with
  | true => simp [runFormProcessor, read_sheet, h1, h2, isCloseConn]
  | false =>
      cases values with
      | nil => simp [runFormProcessor, read_sheet, h1, h2, isCloseConn]
      | cons headers rows =>
          cases cursorFail with
          | true => simp [runFormProcessor, read_sheet, h1, h2, isCloseConn]
          | false =>
              rw [runFormProcessor_run procName sid rng headers rows mkArgs uuidFirst
                storeFail uuids u0 h1 h2]
              have hloop := runFormRows_countClose procName (mkArgs (headers :: rows) headers)
                uuidFirst uuids storeFail rows 0 u0
              simp [List.countP_cons, List.countP_append, isCloseConn, hloop]

/-- A processor never calls another form kind's stored procedure. -/
theorem runFormProcessor_countNamed_other (procName sid rng : String)
    (values : List (List String)) (httpFail cursorFail : Bool)
    (mkArgs : List (List String) → List String → List String → Except String (List Value))
    (uuidFirst : Bool) (storeFail : Nat → Bool) (uuids : Nat → String) (u0 : Nat)
    (q : String) (hq : procName ≠ q)
    (hmk : ∀ sd hd row, ∃ t, mkArgs sd hd row = Except.ok t) :
    ((runFormProcessor procName sid rng values httpFail cursorFail mkArgs uuidFirst
        storeFail uuids u0).events.countP (isCallprocNamed q)) = 0 := by
  by_cases h1 : sid = ""
  · simp [runFormProcessor, h1, isCallprocNamed]
  by_cases h2 : rng = ""
  · simp [runFormProcessor, read_sheet, h1, h2, isCallprocNamed]
  cases httpFail with
  | true => simp [runFormProcessor, read_sheet, h1, h2, isCallprocNamed]
  | false =>
      cases values with
      | nil => simp [runFormProcessor, read_sheet, h1, h2, isCallprocNamed]
      | cons headers rows =>
          cases cursorFail with
          | true => simp [runFormProcessor, read_sheet, h1, h2, isCallprocNamed]
          | false =>
              rw [runFormProcessor_run procName sid rng headers rows mkArgs uuidFirst
                storeFail uuids u0 h1 h2]
              have hloop := runFormRows_countNamed_other procName
                (mkArgs (headers :: rows) headers) uuidFirst uuids storeFail
                (fun row => hmk (headers :: rows) headers row) rows q hq 0 u0
              simp [List.countP_cons, List.countP_append, isCallprocNamed, hloop]

/-- The travel argument construction never raises. -/
theorem travelArgsTail_ok (cfg : FormCfg) :
    ∀ sd hd row, ∃ t, travelArgsTail cfg sd hd row = Except.ok t :=
  fun sd hd row => ⟨_, travelArgsTail_eq cfg sd hd row⟩

/-- The building argument construction never raises. -/
theorem buildingArgsTail_ok (cfg : FormCfg) :
    ∀ sd hd row, ∃ t, buildingArgsTail cfg sd hd row = Except.ok t :=
  fun sd hd row => ⟨_, buildingArgsTail_eq cfg sd hd row⟩

/-- The incident argument construction never raises. -/
theorem incidentArgsTail_ok (cfg : FormCfg) :
    ∀ sd hd row, ∃ t, incidentArgsTail cfg sd hd row = Except.ok t :=
  fun sd hd row => ⟨_, incidentArgsTail_eq cfg sd hd row⟩

/-! ### Claim theorems -/

/-- C2: a row shorter than the header is padded to exactly header
length, its original cells preserved in place and every added cell the
empty string; a row of header length or longer is returned unchanged
(never truncated). -/
theorem claim_C2_normalize (headers row : List String) :
    (row.length < headers.length →
      (normalizeRow headers row).length = headers.length ∧
      (normalizeRow headers row).take row.length = row ∧
      ∀ i : Nat, row.length ≤ i → i < headers.length →
        (normalizeRow headers row).get? i = some "") ∧
    (headers.length ≤ row.length → normalizeRow headers row = row) := by
  constructor
  · intro h
    refine ⟨?_, ?_, ?_⟩
    · simp [normalizeRow]
      omega
    · exact List.take_left row _
    · intro i h1 h2
      rw [normalizeRow, List.get?_append_right h1, List.get?_eq_getElem?,
        List.getElem?_replicate, if_pos (by omega)]
  · intro h
    simp [normalizeRow, Nat.sub_eq_zero_of_le h]

/-- Witness for C2 at concrete inputs: a short row is padded, a long
row is untouched. -/
theorem claim_C2_normalize_witness :
    ((normalizeRow ["Name", "Email"] ["Alice"]).length = (["Name", "Email"] : List String).length ∧
      (normalizeRow ["Name", "Email"] ["Alice"]).take 1 = ["Alice"] ∧
      (normalizeRow ["Name", "Email"] ["Alice"]).get? 1 = some "") ∧
    normalizeRow ["Name"] ["Bob", "extra"] = ["Bob", "extra"] := by
  have h := (claim_C2_normalize ["Name", "Email"] ["Alice"]).1 (by decide)
  exact ⟨⟨h.1, h.2.1, h.2.2 1 (by decide) (by decide)⟩,
    (claim_C2_normalize ["Name"] ["Bob", "extra"]).2 (by decide)⟩

/-- C3: the date normalizer returns `none` on the empty string, tries
`%Y-%m-%d`, then `%m/%d/%Y`, then `%d/%m/%Y` in that fixed order,
re-renders the first full-string match as `YYYY-MM-DD`, and returns
`none` when no pattern matches (it is a total function, so it never
raises); an ambiguous string matching both slash patterns resolves to
the earlier one. -/
theorem claim_C3_parse_date :
    parse_date "" = none ∧
    (∀ (s : String) (v : Nat × Nat × Nat), strptime s DateFmt.ymd = some v →
      parse_date s = some (strftimeYMD v)) ∧
    (∀ (s : String) (v : Nat × Nat × Nat), strptime s DateFmt.ymd = none →
      strptime s DateFmt.mdy = some v → parse_date s = some (strftimeYMD v)) ∧
    (∀ (s : String) (v : Nat × Nat × Nat), strptime s DateFmt.ymd = none →
      strptime s DateFmt.mdy = none → strptime s DateFmt.dmy = some v →
      parse_date s = some (strftimeYMD v)) ∧
    (∀ s : String, strptime s DateFmt.ymd = none → strptime s DateFmt.mdy = none →
      strptime s DateFmt.dmy = none → parse_date s = none) ∧
    parse_date "2024-03-15" = some "2024-03-15" ∧
    parse_date "03/15/2024" = some "2024-03-15" ∧
    parse_date "05/04/2024" = some "2024-05-04" ∧
    strptime "05/04/2024" DateFmt.dmy = some (2024, 4, 5) ∧
    parse_date "not-a-date" = none := by
  have hempty : strptime "" DateFmt.ymd = none ∧ strptime "" DateFmt.mdy = none ∧
      strptime "" DateFmt.dmy = none := by decide
  refine ⟨by decide, ?_, ?_, ?_, ?_, by decide, by decide, by decide, by decide, by decide⟩
  · intro s v h
    by_cases hs : s = ""
    · rw [hs, hempty.1] at h
      cases h
    · simp [parse_date, hs, List.findSome?, h]
  · intro s v h1 h2
    by_cases hs : s = ""
    · rw [hs, hempty.2.1] at h2
      cases h2
    · simp [parse_date, hs, List.findSome?, h1, h2]
  · intro s v h1 h2 h3
    by_cases hs : s = ""
    · rw [hs, hempty.2.2] at h3
      cases h3
    · simp [parse_date, hs, List.findSome?, h1, h2, h3]
  · intro s h1 h2 h3
    by_cases hs : s = ""
    · simp [parse_date, hs]
    · simp [parse_date, hs, List.findSome?, h1, h2, h3]

/-- Witness for C3: each conditional clause applied at a concrete
input (an ISO date, a US-format date, a day-first date, and a string
matched by no pattern). -/
theorem claim_C3_parse_date_witness :
    parse_date "2024-12-31" = some "2024-12-31" ∧
    parse_date "12/25/2024" = some "2024-12-25" ∧
    parse_date "25/12/2024" = some "2024-12-25" ∧
    parse_date "31/31/2024" = none :=
  ⟨claim_C3_parse_date.2.1 "2024-12-31" (2024, 12, 31) (by decide),
   claim_C3_parse_date.2.2.1 "12/25/2024" (2024, 12, 25) (by decide) (by decide),
   claim_C3_parse_date.2.2.2.1 "25/12/2024" (2024, 12, 25) (by decide) (by decide) (by decide),
   claim_C3_parse_date.2.2.2.2.1 "31/31/2024" (by decide) (by decide) (by decide)⟩

/-- C5: for every header, row, field name and default, extraction
returns the defined default — the empty string, `0`, or `None`
alike — whenever the field name is absent from the header, without
raising. -/
theorem claim_C5_extract_default :
    (∀ (headers row_data : List String) (name : String) (dflt : Value),
      name ∉ headers → getFieldD headers row_data name dflt = Except.ok dflt) ∧
    (∀ (headers row_data : List String) (name dflt : String),
      name ∉ headers → getFieldStr headers row_data name dflt = Except.ok dflt) := by
  constructor
  · intro headers row_data name dflt h
    simp [getFieldD, h]
  · intro headers row_data name dflt h
    simp [getFieldStr, h]

/-- Witness for C5: the incident processor's `CSA ID` (default `None`)
and the travel processor's `Email` (default `''`) when the column is
missing. -/
theorem claim_C5_extract_default_witness :
    getFieldD ["Incident Type", "Location"] ["fire", "lab"] "CSA ID" Value.null =
      Except.ok Value.null ∧
    getFieldStr ["Name"] ["Alice"] "Email" "" = Except.ok "" :=
  ⟨claim_C5_extract_default.1 ["Incident Type", "Location"] ["fire", "lab"] "CSA ID"
      Value.null (by decide),
   claim_C5_extract_default.2 ["Name"] ["Alice"] "Email" "" (by decide)⟩

/-- C10: when a recognized field name is present in the header, the
header's index of that name is below header length, which is at most
the padded row's length, so extraction of a present column on the
padded row never raises — even when the original row is shorter than
the header. -/
theorem claim_C10_present_in_bounds (headers row : List String) (name : String)
    (h : name ∈ headers) :
    headers.indexOf name < headers.length ∧
    headers.length ≤ (normalizeRow headers row).length ∧
    (∀ dflt : String, ∃ v, getFieldStr headers (normalizeRow headers row) name dflt =
      Except.ok v) ∧
    (∀ dflt : Value, ∃ v, getFieldD headers (normalizeRow headers row) name dflt =
      Except.ok v) := by
  refine ⟨List.indexOf_lt_length.2 h, length_normalizeRow_ge headers row, ?_, ?_⟩
  · intro dflt
    exact ⟨_, getFieldStr_normalize headers row name dflt⟩
  · intro dflt
    exact ⟨_, getFieldD_normalize headers row name dflt⟩

/-- Witness for C10: `Email` is present in the header but the data row
is shorter; extraction still succeeds (with the padding cell). -/
theorem claim_C10_present_in_bounds_witness :
    List.indexOf "Email" ["Name", "Email"] < (["Name", "Email"] : List String).length ∧
    ∃ v, getFieldStr ["Name", "Email"] (normalizeRow ["Name", "Email"] ["Alice"]) "Email" "" =
      Except.ok v := by
  have h := claim_C10_present_in_bounds ["Name", "Email"] ["Alice"] "Email" (by decide)
  exact ⟨h.1, h.2.2.1 ""⟩

/-- C6: for each of the three form kinds, a blank configured sheet id
yields exactly one error log, no spreadsheet read, no store call and no
committed record, returning normally; a successful read returning no
rows yields the read event and one informational log, again with no
store interaction. -/
theorem claim_C6_short_circuit (cfg : FormCfg) (values : List (List String))
    (httpFail cursorFail : Bool) (storeFail : Nat → Bool) (uuids : Nat → String) (u0 : Nat) :
    (cfg.sheetId = "" →
      process_travel_data cfg values httpFail cursorFail storeFail uuids u0 =
        ⟨u0, [Ev.logError], []⟩ ∧
      process_building_data cfg values httpFail cursorFail storeFail uuids u0 =
        ⟨u0, [Ev.logError], []⟩ ∧
      process_incident_data cfg values httpFail cursorFail storeFail uuids u0 =
        ⟨u0, [Ev.logError], []⟩) ∧
    (cfg.sheetId ≠ "" → cfg.rangeName ≠ "" →
      process_travel_data cfg [] false cursorFail storeFail uuids u0 =
        ⟨u0, [Ev.apiRead cfg.sheetId cfg.rangeName, Ev.logInfo], []⟩ ∧
      process_building_data cfg [] false cursorFail storeFail uuids u0 =
        ⟨u0, [Ev.apiRead cfg.sheetId cfg.rangeName, Ev.logInfo], []⟩ ∧
      process_incident_data cfg [] false cursorFail storeFail uuids u0 =
        ⟨u0, [Ev.apiRead cfg.sheetId cfg.rangeName, Ev.logInfo], []⟩) := by
  constructor
  · intro h
    refine ⟨?_, ?_, ?_⟩ <;>
      simp [process_travel_data, process_building_data, process_incident_data,
        runFormProcessor, h]
  · intro h1 h2
    refine ⟨?_, ?_, ?_⟩ <;>
      simp [process_travel_data, process_building_data, process_incident_data,
        runFormProcessor, read_sheet, h1, h2]

/-- Witness for C6: a blank travel sheet id, and an empty building
read. -/
theorem claim_C6_short_circuit_witness :
    process_travel_data ⟨"", "A:G"⟩ [["Name"], ["Alice"]] false false (fun _ => false)
      (fun n => toString n) 0 = ⟨0, [Ev.logError], []⟩ ∧
    process_building_data ⟨"doc", "A:C"⟩ [] false false (fun _ => false)
      (fun n => toString n) 7 = ⟨7, [Ev.apiRead "doc" "A:C", Ev.logInfo], []⟩ :=
  ⟨((claim_C6_short_circuit ⟨"", "A:G"⟩ [["Name"], ["Alice"]] false false (fun _ => false)
      (fun n => toString n) 0).1 rfl).1,
   ((claim_C6_short_circuit ⟨"doc", "A:C"⟩ [] false false (fun _ => false)
      (fun n => toString n) 7).2 (by decide) (by decide)).2.1⟩

/-- Counting a Boolean predicate and its negation over a list covers
the whole list. -/
theorem countP_bool_split (l : List Nat) (p : Nat → Bool) :
    (l.countP fun k => !p k) + (l.countP fun k => p k) = l.length := by
  induction l with
  | nil => rfl
  | cons a l ih => cases h : p a <;> simp [List.countP_cons, h] <;> omega

/-- Per-row commit-or-rollback counts for one processor invocation on
the good path. -/
theorem processor_counts (procName sid rng : String) (headers : List String)
    (rows : List (List String))
    (mkArgs : List (List String) → List String → List String → Except String (List Value))
    (uuidFirst : Bool) (storeFail : Nat → Bool) (uuids : Nat → String) (u0 : Nat)
    (h1 : sid ≠ "") (h2 : rng ≠ "")
    (hmk : ∀ sd hd row, ∃ t, mkArgs sd hd row = Except.ok t) :
    ((runFormProcessor procName sid rng (headers :: rows) false false mkArgs uuidFirst
        storeFail uuids u0).events.countP isCallproc) = rows.length ∧
    ((runFormProcessor procName sid rng (headers :: rows) false false mkArgs uuidFirst
        storeFail uuids u0).committed.length) =
      ((List.range' 0 rows.length).countP fun k => !storeFail k) ∧
    ((runFormProcessor procName sid rng (headers :: rows) false false mkArgs uuidFirst
        storeFail uuids u0).events.countP isCommit) =
      ((List.range' 0 rows.length).countP fun k => !storeFail k) ∧
    ((runFormProcessor procName sid rng (headers :: rows) false false mkArgs uuidFirst
        storeFail uuids u0).events.countP isRollback) =
      ((List.range' 0 rows.length).countP fun k => storeFail k) ∧
    ((runFormProcessor procName sid rng (headers :: rows) false false mkArgs uuidFirst
        storeFail uuids u0).events.countP isCommit) +
      ((runFormProcessor procName sid rng (headers :: rows) false false mkArgs uuidFirst
        storeFail uuids u0).events.countP isRollback) = rows.length := by
  rw [runFormProcessor_run procName sid rng headers rows mkArgs uuidFirst storeFail uuids u0
    h1 h2]
  have hmk' : ∀ row, ∃ t, mkArgs (headers :: rows) headers row = Except.ok t :=
    fun row => hmk (headers :: rows) headers row
  have hcall := runFormRows_countCall procName (mkArgs (headers :: rows) headers) uuidFirst
    uuids storeFail hmk' rows 0 u0
  have hlen := runFormRows_committed_length procName (mkArgs (headers :: rows) headers)
    uuidFirst uuids storeFail hmk' rows 0 u0
  have hcommit := runFormRows_countCommit procName (mkArgs (headers :: rows) headers)
    uuidFirst uuids storeFail hmk' rows 0 u0
  have hroll := runFormRows_countRollback procName (mkArgs (headers :: rows) headers)
    uuidFirst uuids storeFail hmk' rows 0 u0
  have hsplit := countP_bool_split (List.range' 0 rows.length) storeFail
  have hrlen : (List.range' 0 rows.length).length = rows.length := by simp
  refine ⟨?_, ?_, ?_, ?_, ?_⟩ <;>
    simp [List.countP_cons, List.countP_append, isCallproc, isCommit, isRollback,
      hcall, hlen, hcommit, hroll] <;>
    omega

/-- C1: for each form kind, on a batch of data rows each row produces
exactly one store call; a row whose store call succeeds contributes
exactly one commit and one committed record, a row whose store call
raises contributes exactly one rollback and no record; commits and
rollbacks together account for every row, so one row's failure never
prevents the remaining rows from being processed and committed. -/
theorem claim_C1_row_isolation (cfg : FormCfg) (headers : List String)
    (rows : List (List String)) (storeFail : Nat → Bool) (uuids : Nat → String) (u0 : Nat)
    (h1 : cfg.sheetId ≠ "") (h2 : cfg.rangeName ≠ "") :
    (∀ run ∈ [process_travel_data cfg (headers :: rows) false false storeFail uuids u0,
              process_building_data cfg (headers :: rows) false false storeFail uuids u0,
              process_incident_data cfg (headers :: rows) false false storeFail uuids u0],
      run.events.countP isCallproc = rows.length ∧
      run.committed.length = ((List.range' 0 rows.length).countP fun k => !storeFail k) ∧
      run.events.countP isCommit = run.committed.length ∧
      run.events.countP isRollback =
        ((List.range' 0 rows.length).countP fun k => storeFail k) ∧
      run.events.countP isCommit + run.events.countP isRollback = rows.length) := by
  intro run hrun
  have htravel := processor_counts "process_travel_form" cfg.sheetId cfg.rangeName headers
    rows (travelArgsTail cfg) false storeFail uuids u0 h1 h2 (travelArgsTail_ok cfg)
  have hbuilding := processor_counts "process_building_form" cfg.sheetId cfg.rangeName headers
    rows (buildingArgsTail cfg) true storeFail uuids u0 h1 h2 (buildingArgsTail_ok cfg)
  have hincident := processor_counts "process_incident_form" cfg.sheetId cfg.rangeName headers
    rows (incidentArgsTail cfg) true storeFail uuids u0 h1 h2 (incidentArgsTail_ok cfg)
  simp only [List.mem_cons, List.mem_singleton, List.not_mem_nil, or_false] at hrun
  rcases hrun with h | h | h <;> subst h
  · exact ⟨htravel.1, htravel.2.1, htravel.2.2.1.trans htravel.2.1.symm, htravel.2.2.2.1,
      htravel.2.2.2.2⟩
  · exact ⟨hbuilding.1, hbuilding.2.1, hbuilding.2.2.1.trans hbuilding.2.1.symm,
      hbuilding.2.2.2.1, hbuilding.2.2.2.2⟩
  · exact ⟨hincident.1, hincident.2.1, hincident.2.2.1.trans hincident.2.1.symm,
      hincident.2.2.2.1, hincident.2.2.2.2⟩

/-- Witness for C1: a three-row travel batch whose second row's store
call raises — three calls are made, rows one and three are committed,
row two is rolled back. -/
theorem claim_C1_row_isolation_witness :
    (process_travel_data ⟨"doc", "A:G"⟩ [["Name"], ["r1"], ["r2"], ["r3"]] false false
        (fun i => i == 1) (fun n => toString n) 0).events.countP isCallproc = 3 ∧
    (process_travel_data ⟨"doc", "A:G"⟩ [["Name"], ["r1"], ["r2"], ["r3"]] false false
        (fun i => i == 1) (fun n => toString n) 0).committed.length = 2 ∧
    (process_travel_data ⟨"doc", "A:G"⟩ [["Name"], ["r1"], ["r2"], ["r3"]] false false
        (fun i => i == 1) (fun n => toString n) 0).events.countP isRollback = 1 := by
  have h := claim_C1_row_isolation ⟨"doc", "A:G"⟩ ["Name"] [["r1"], ["r2"], ["r3"]]
    (fun i => i == 1) (fun n => toString n) 0 (by decide) (by decide)
    (process_travel_data ⟨"doc", "A:G"⟩ [["Name"], ["r1"], ["r2"], ["r3"]] false false
      (fun i => i == 1) (fun n => toString n) 0) (by simp)
  refine ⟨h.1, ?_, ?_⟩
  · rw [h.2.1]
    decide
  · rw [h.2.2.2.1]
    decide

/-- In a duplicate-free list, content lookup of the element at
position `k` returns `k`. -/
theorem indexOf_of_get?_nodup :
    ∀ (l : List (List String)) (k : Nat) (a : List String),
      l.Nodup → l.get? k = some a → l.indexOf a = k := by
  intro l
  induction l with
  | nil =>
      intro k a _ hget
      simp at hget
  | cons x xs ih =>
      intro k a hnd hget
      cases k with
      | zero =>
          rw [List.get?_cons_zero] at hget
          injection hget with h
          subst h
          simp [List.indexOf, List.findIdx_cons]
      | succ k' =>
          rw [List.get?_cons_succ] at hget
          have hmem : a ∈ xs := List.get?_mem hget
          have hne : (x == a) = false := by
            simp only [beq_eq_false_iff_ne, ne_eq]
            intro he
            subst he
            exact (List.nodup_cons.1 hnd).1 hmem
          have hxs := ih k' a (List.nodup_cons.1 hnd).2 hget
          simp only [List.indexOf, List.findIdx_cons] at hxs ⊢
          simp [hne, hxs]

/-- A data row of a duplicate-free source range sits at index `k + 1`
of the full range (header included), and content lookup finds it
there. -/
theorem nodup_indexOf_data_row (headers : List String) (rows : List (List String))
    (k : Nat) (row : List String) (hnd : (headers :: rows).Nodup)
    (hget : rows.get? k = some row) : (headers :: rows).indexOf row = k + 1 := by
  apply indexOf_of_get?_nodup (headers :: rows) (k + 1) row hnd
  rw [List.get?_cons_succ]
  exact hget

/-- Counterexample to C4 as stated: in a travel run over a header and
one data row, the only committed record's position argument
(`source_data.index(row) + 1`) is `2`, not the `1` the claim requires
for the first data row — the index is taken over the full source data,
header included. -/
theorem claim_C4_counterexample :
    ((process_travel_data ⟨"doc", "A:G"⟩ [["Name"], ["Alice"]] false false
        (fun _ => false) (fun n => toString n) 0).committed.map
      (fun c => c.2.get? 3)) = [some (Value.int 2)] ∧
    ((process_travel_data ⟨"doc", "A:G"⟩ [["Name"], ["Alice"]] false false
        (fun _ => false) (fun n => toString n) 0).committed.map
      (fun c => c.2.get? 3)) ≠ [some (Value.int 1)] := by
  constructor
  · decide
  · decide

/-- C4 as amended: every committed record of a travel or building run
carries a fresh identity, the source document id, the source range,
and a position computed as one plus the content lookup index of the
row in the full source data (header included): over a duplicate-free
source range the `k`-th data row (0-based) carries position `k + 2`,
so distinct data rows carry distinct positions, but the first data row
carries `2`, not `1`. -/
theorem claim_C4_amended_provenance (cfg : FormCfg) (headers : List String)
    (rows : List (List String)) (storeFail : Nat → Bool) (uuids : Nat → String)
    (u0 k : Nat) (row : List String)
    (h1 : cfg.sheetId ≠ "") (h2 : cfg.rangeName ≠ "")
    (hnd : (headers :: rows).Nodup)
    (hget : rows.get? k = some row) (hsf : storeFail k = false) :
    (("process_travel_form",
        Value.str (uuids (u0 + k)) :: Value.str cfg.sheetId :: Value.str cfg.rangeName ::
          Value.int ((k + 2 : Nat) : Int) :: travelFields headers row) ∈
      (process_travel_data cfg (headers :: rows) false false storeFail uuids u0).committed) ∧
    (("process_building_form",
        Value.str (uuids (u0 + k)) :: Value.str cfg.sheetId :: Value.str cfg.rangeName ::
          Value.int ((k + 2 : Nat) : Int) :: buildingFields headers row) ∈
      (process_building_data cfg (headers :: rows) false false storeFail uuids u0).committed) := by
  have hidx := nodup_indexOf_data_row headers rows k row hnd hget
  have hcast : ((k + 1 : Nat) : Int) + 1 = ((k + 2 : Nat) : Int) := by push_cast; ring
  have hsf' : storeFail (0 + k) = false := by simpa using hsf
  constructor
  · have heq := travelArgsTail_eq cfg (headers :: rows) headers row
    rw [hidx, hcast] at heq
    simp only [process_travel_data]
    rw [runFormProcessor_run "process_travel_form" cfg.sheetId cfg.rangeName headers rows
      (travelArgsTail cfg) false storeFail uuids u0 h1 h2]
    exact runFormRows_commit_mem "process_travel_form"
      (travelArgsTail cfg (headers :: rows) headers) false uuids storeFail
      (fun r => travelArgsTail_ok cfg (headers :: rows) headers r) rows 0 u0 k row _
      hget hsf' heq
  · have heq := buildingArgsTail_eq cfg (headers :: rows) headers row
    rw [hidx, hcast] at heq
    simp only [process_building_data]
    rw [runFormProcessor_run "process_building_form" cfg.sheetId cfg.rangeName headers rows
      (buildingArgsTail cfg) true storeFail uuids u0 h1 h2]
    exact runFormRows_commit_mem "process_building_form"
      (buildingArgsTail cfg (headers :: rows) headers) true uuids storeFail
      (fun r => buildingArgsTail_ok cfg (headers :: rows) headers r) rows 0 u0 k row _
      hget hsf' heq

/-- Witness for the amended C4: in a two-data-row travel batch the
second data row (`k = 1`) is committed with position `3` and the
identity drawn at counter `1`. -/
theorem claim_C4_amended_provenance_witness :
    ("process_travel_form",
        Value.str "1" :: Value.str "doc" :: Value.str "A:G" ::
          Value.int ((3 : Nat) : Int) :: travelFields ["Name"] ["Bob"]) ∈
      (process_travel_data ⟨"doc", "A:G"⟩ [["Name"], ["Alice"], ["Bob"]] false false
        (fun _ => false) (fun n => toString n) 0).committed := by
  have h := (claim_C4_amended_provenance ⟨"doc", "A:G"⟩ ["Name"] [["Alice"], ["Bob"]]
    (fun _ => false) (fun n => toString n) 0 1 ["Bob"] (by decide) (by decide)
    (by decide) (by decide) (by decide)).1
  simpa using h

/-- C8: on every run of the batch — whatever the configurations,
sheet contents and failure oracles, including the case where every
processor's body fails — the trace is the three processors' traces
followed by the completion log and exactly one connection close: the
processors themselves never close the connection, and the `finally`
block closes it exactly once after all three have been attempted. -/
theorem claim_C8_close_once (tcfg bcfg icfg : FormCfg)
    (tvals bvals ivals : List (List String)) (thttp bhttp ihttp tcur bcur icur : Bool)
    (tfail bfail ifail : Nat → Bool) (uuids : Nat → String) (u0 : Nat) :
    (process_all_data tcfg bcfg icfg tvals bvals ivals thttp bhttp ihttp tcur bcur icur
        tfail bfail ifail uuids u0).events =
      ((process_travel_data tcfg tvals thttp tcur tfail uuids u0).events ++
        (process_building_data bcfg bvals bhttp bcur bfail uuids
          (process_travel_data tcfg tvals thttp tcur tfail uuids u0).nextUuid).events ++
        (process_incident_data icfg ivals ihttp icur ifail uuids
          (process_building_data bcfg bvals bhttp bcur bfail uuids
            (process_travel_data tcfg tvals thttp tcur tfail uuids u0).nextUuid).nextUuid).events) ++
      [Ev.logInfo, Ev.closeConn, Ev.logInfo] ∧
    (((process_travel_data tcfg tvals thttp tcur tfail uuids u0).events ++
        (process_building_data bcfg bvals bhttp bcur bfail uuids
          (process_travel_data tcfg tvals thttp tcur tfail uuids u0).nextUuid).events ++
        (process_incident_data icfg ivals ihttp icur ifail uuids
          (process_building_data bcfg bvals bhttp bcur bfail uuids
            (process_travel_data tcfg tvals thttp tcur tfail uuids u0).nextUuid).nextUuid).events).countP
      isCloseConn) = 0 ∧
    ((process_all_data tcfg bcfg icfg tvals bvals ivals thttp bhttp ihttp tcur bcur icur
        tfail bfail ifail uuids u0).events.countP isCloseConn) = 1 := by
  have ht := runFormProcessor_countClose "process_travel_form" tcfg.sheetId tcfg.rangeName
    tvals thttp tcur (travelArgsTail tcfg) false tfail uuids u0
  have hb := runFormProcessor_countClose "process_building_form" bcfg.sheetId bcfg.rangeName
    bvals bhttp bcur (buildingArgsTail bcfg) true bfail uuids
    (process_travel_data tcfg tvals thttp tcur tfail uuids u0).nextUuid
  have hi := runFormProcessor_countClose "process_incident_form" icfg.sheetId icfg.rangeName
    ivals ihttp icur (incidentArgsTail icfg) true ifail uuids
    (process_building_data bcfg bvals bhttp bcur bfail uuids
      (process_travel_data tcfg tvals thttp tcur tfail uuids u0).nextUuid).nextUuid
  refine ⟨?_, ?_, ?_⟩
  · simp [process_all_data]
  · simp only [process_travel_data, process_building_data, process_incident_data] at ht hb hi ⊢
    simp [List.countP_append, ht, hb, hi]
  · simp only [process_all_data, process_travel_data, process_building_data,
      process_incident_data] at ht hb hi ⊢
    simp [List.countP_append, List.countP_cons, ht, hb, hi, isCloseConn]

/-- C7: the batch trace is always the travel processor's trace, then
the building processor's, then the incident processor's, then the
shutdown tail — the fixed order; a processor-level exception (the
cursor call raising, caught by that processor's own top-level
`except`) is logged; and whatever happens to the travel processor —
any configuration, any sheet contents, any failure oracle, including a
processor-level exception — the building and incident processors still
process every one of their rows. -/
theorem claim_C7_processor_sequence (tcfg bcfg icfg : FormCfg)
    (tvals bvals ivals : List (List String)) (thttp bhttp ihttp tcur bcur icur : Bool)
    (tfail bfail ifail : Nat → Bool) (uuids : Nat → String) (u0 : Nat) :
    (process_all_data tcfg bcfg icfg tvals bvals ivals thttp bhttp ihttp tcur bcur icur
        tfail bfail ifail uuids u0).events =
      (process_travel_data tcfg tvals thttp tcur tfail uuids u0).events ++
        ((process_building_data bcfg bvals bhttp bcur bfail uuids
          (process_travel_data tcfg tvals thttp tcur tfail uuids u0).nextUuid).events ++
        ((process_incident_data icfg ivals ihttp icur ifail uuids
          (process_building_data bcfg bvals bhttp bcur bfail uuids
            (process_travel_data tcfg tvals thttp tcur tfail uuids u0).nextUuid).nextUuid).events ++
         [Ev.logInfo, Ev.closeConn, Ev.logInfo])) ∧
    (tcur = true → tcfg.sheetId ≠ "" → tcfg.rangeName ≠ "" → thttp = false → tvals ≠ [] →
      Ev.logError ∈ (process_travel_data tcfg tvals thttp tcur tfail uuids u0).events) ∧
    (∀ (bheaders : List String) (brows : List (List String)),
      bvals = bheaders :: brows → bcfg.sheetId ≠ "" → bcfg.rangeName ≠ "" →
      bhttp = false → bcur = false →
      ((process_all_data tcfg bcfg icfg tvals bvals ivals thttp bhttp ihttp tcur bcur icur
          tfail bfail ifail uuids u0).events.countP
        (isCallprocNamed "process_building_form")) = brows.length) ∧
    (∀ (iheaders : List String) (irows : List (List String)),
      ivals = iheaders :: irows → icfg.sheetId ≠ "" → icfg.rangeName ≠ "" →
      ihttp = false → icur = false →
      ((process_all_data tcfg bcfg icfg tvals bvals ivals thttp bhttp ihttp tcur bcur icur
          tfail bfail ifail uuids u0).events.countP
        (isCallprocNamed "process_incident_form")) = irows.length) := by
  refine ⟨by simp [process_all_data], ?_, ?_, ?_⟩
  · intro htcur h1 h2 h3 hne
    subst htcur
    subst h3
    cases tvals with
    | nil => exact absurd rfl hne
    | cons th trows =>
        simp [process_travel_data, runFormProcessor, read_sheet, h1, h2]
  · intro bheaders brows hb h1 h2 h3 h4
    subst hb
    subst h3
    subst h4
    have hother : ("process_travel_form" : String) ≠ "process_building_form" := by decide
    have hother' : ("process_incident_form" : String) ≠ "process_building_form" := by decide
    have ht := runFormProcessor_countNamed_other "process_travel_form" tcfg.sheetId
      tcfg.rangeName tvals thttp tcur (travelArgsTail tcfg) false tfail uuids u0
      "process_building_form" hother (travelArgsTail_ok tcfg)
    have hi := fun u => runFormProcessor_countNamed_other "process_incident_form" icfg.sheetId
      icfg.rangeName ivals ihttp icur (incidentArgsTail icfg) true ifail uuids u
      "process_building_form" hother' (incidentArgsTail_ok icfg)
    have hself := runFormRows_countNamed_self "process_building_form"
      (buildingArgsTail bcfg (bheaders :: brows) bheaders) true uuids bfail
      (fun r => buildingArgsTail_ok bcfg (bheaders :: brows) bheaders r) brows 0
      (process_travel_data tcfg tvals thttp tcur tfail uuids u0).nextUuid
    simp only [process_all_data, process_travel_data, process_building_data,
      process_incident_data] at ht hi hself ⊢
    rw [runFormProcessor_run "process_building_form" bcfg.sheetId bcfg.rangeName bheaders
      brows (buildingArgsTail bcfg) true bfail uuids _ h1 h2]
    simp [List.countP_append, List.countP_cons, ht, hi, hself, isCallprocNamed]
  · intro iheaders irows hi0 h1 h2 h3 h4
    subst hi0
    subst h3
    subst h4
    have hother : ("process_travel_form" : String) ≠ "process_incident_form" := by decide
    have hother' : ("process_building_form" : String) ≠ "process_incident_form" := by decide
    have ht := runFormProcessor_countNamed_other "process_travel_form" tcfg.sheetId
      tcfg.rangeName tvals thttp tcur (travelArgsTail tcfg) false tfail uuids u0
      "process_incident_form" hother (travelArgsTail_ok tcfg)
    have hb := fun u => runFormProcessor_countNamed_other "process_building_form" bcfg.sheetId
      bcfg.rangeName bvals bhttp bcur (buildingArgsTail bcfg) true bfail uuids u
      "process_incident_form" hother' (buildingArgsTail_ok bcfg)
    have hself := fun u => runFormRows_countNamed_self "process_incident_form"
      (incidentArgsTail icfg (iheaders :: irows) iheaders) true uuids ifail
      (fun r => incidentArgsTail_ok icfg (iheaders :: irows) iheaders r) irows 0 u
    simp only [process_all_data, process_travel_data, process_building_data,
      process_incident_data] at ht hb hself ⊢
    rw [runFormProcessor_run "process_incident_form" icfg.sheetId icfg.rangeName iheaders
      irows (incidentArgsTail icfg) true ifail uuids _ h1 h2]
    simp [List.countP_append, List.countP_cons, ht, hb, hself, isCallprocNamed]

/-- Witness for C7: the travel processor's cursor call raises (its own
`except` logs the error), and the building processor still commits its
single row. -/
theorem claim_C7_processor_sequence_witness :
    Ev.logError ∈ (process_travel_data ⟨"t", "R"⟩ [["Name"], ["x"]] false true
      (fun _ => false) (fun n => toString n) 0).events ∧
    ((process_all_data ⟨"t", "R"⟩ ⟨"b", "R"⟩ ⟨"i", "R"⟩ [["Name"], ["x"]]
        [["Building Name"], ["y"]] [["CSA ID"], ["z"]] false false false true false false
        (fun _ => false) (fun _ => false) (fun _ => false) (fun n => toString n) 0).events.countP
      (isCallprocNamed "process_building_form")) = 1 := by
  have h := claim_C7_processor_sequence ⟨"t", "R"⟩ ⟨"b", "R"⟩ ⟨"i", "R"⟩ [["Name"], ["x"]]
    [["Building Name"], ["y"]] [["CSA ID"], ["z"]] false false false true false false
    (fun _ => false) (fun _ => false) (fun _ => false) (fun n => toString n) 0
  exact ⟨h.2.1 rfl (by decide) (by decide) rfl (by decide),
    h.2.2.1 ["Building Name"] [["y"]] rfl (by decide) (by decide) rfl rfl⟩

/-- On the good path, a processor's submitted identities are the uuid
stream over the counters `u0, …, u0 + rows - 1`, whatever the rows
contain. -/
theorem processor_good_callIds (procName sid rng : String) (headers : List String)
    (rows : List (List String))
    (mkArgs : List (List String) → List String → List String → Except String (List Value))
    (uuidFirst : Bool) (storeFail : Nat → Bool) (uuids : Nat → String) (u0 : Nat)
    (h1 : sid ≠ "") (h2 : rng ≠ "")
    (hmk : ∀ sd hd row, ∃ t, mkArgs sd hd row = Except.ok t) :
    callIds (runFormProcessor procName sid rng (headers :: rows) false false mkArgs uuidFirst
        storeFail uuids u0).events = (List.range' u0 rows.length).map uuids := by
  rw [runFormProcessor_run procName sid rng headers rows mkArgs uuidFirst storeFail uuids u0
    h1 h2]
  have hloop := runFormRows_callIds procName (mkArgs (headers :: rows) headers) uuidFirst
    uuids storeFail (fun r => hmk (headers :: rows) headers r) rows 0 u0
  simp [callIds, List.filterMap_append] at hloop ⊢
  exact hloop

/-- The function `callIds` distributes over trace concatenation. -/
theorem callIds_append (l1 l2 : List Ev) :
    callIds (l1 ++ l2) = callIds l1 ++ callIds l2 := by
  simp [callIds, List.filterMap_append]

/-- Splitting a counter segment at an interior point. -/
theorem range'_split (a b s : Nat) :
    List.range' s (a + b) = List.range' s a ++ List.range' (s + a) b := by
  induction a generalizing s with
  | zero => simp
  | succ a ih =>
      have h1 : a + 1 + b = (a + b) + 1 := by omega
      rw [h1, List.range'_succ, List.range'_succ, ih (s + 1), List.cons_append]
      have h2 : s + 1 + a = s + (a + 1) := by omega
      rw [h2]

/-- Concatenating the images of three consecutive counter segments. -/
theorem map_range'_triple (f : Nat → String) (s a b c : Nat) :
    List.map f (List.range' s a) ++ List.map f (List.range' (s + a) b) ++
      List.map f (List.range' (s + a + b) c) = List.map f (List.range' s (a + b + c)) := by
  rw [show a + b + c = a + (b + c) from by omega, range'_split a (b + c) s,
    range'_split b c (s + a), List.map_append, List.map_append, List.append_assoc]

/-- A whole batch run draws its identities from one contiguous counter
segment starting at the initial counter, ending at the run's final
counter. -/
theorem process_all_data_ids (tcfg bcfg icfg : FormCfg)
    (tvals bvals ivals : List (List String)) (thttp bhttp ihttp tcur bcur icur : Bool)
    (tfail bfail ifail : Nat → Bool) (uuids : Nat → String) (u0 : Nat) :
    ∃ n,
      (process_all_data tcfg bcfg icfg tvals bvals ivals thttp bhttp ihttp tcur bcur icur
        tfail bfail ifail uuids u0).nextUuid = u0 + n ∧
      callIds (process_all_data tcfg bcfg icfg tvals bvals ivals thttp bhttp ihttp tcur bcur
        icur tfail bfail ifail uuids u0).events = (List.range' u0 n).map uuids := by
  obtain ⟨n1, hu1, hc1⟩ := runFormProcessor_ids "process_travel_form" tcfg.sheetId
    tcfg.rangeName tvals thttp tcur (travelArgsTail tcfg) false tfail uuids u0
    (travelArgsTail_ok tcfg)
  obtain ⟨n2, hu2, hc2⟩ := runFormProcessor_ids "process_building_form" bcfg.sheetId
    bcfg.rangeName bvals bhttp bcur (buildingArgsTail bcfg) true bfail uuids
    (runFormProcessor "process_travel_form" tcfg.sheetId tcfg.rangeName tvals thttp tcur
      (travelArgsTail tcfg) false tfail uuids u0).nextUuid
    (buildingArgsTail_ok bcfg)
  obtain ⟨n3, hu3, hc3⟩ := runFormProcessor_ids "process_incident_form" icfg.sheetId
    icfg.rangeName ivals ihttp icur (incidentArgsTail icfg) true ifail uuids
    (runFormProcessor "process_building_form" bcfg.sheetId bcfg.rangeName bvals bhttp bcur
      (buildingArgsTail bcfg) true bfail uuids
      (runFormProcessor "process_travel_form" tcfg.sheetId tcfg.rangeName tvals thttp tcur
        (travelArgsTail tcfg) false tfail uuids u0).nextUuid).nextUuid
    (incidentArgsTail_ok icfg)
  rw [hu1] at hu2 hc2 hu3 hc3
  rw [hu2] at hu3 hc3
  refine ⟨n1 + n2 + n3, ?_, ?_⟩
  · simp only [process_all_data, process_travel_data, process_building_data,
      process_incident_data]
    rw [hu1, hu2, hu3]
    omega
  · have htail : callIds [Ev.logInfo, Ev.closeConn, Ev.logInfo] = [] := rfl
    simp only [process_all_data, process_travel_data, process_building_data,
      process_incident_data]
    rw [callIds_append, callIds_append, callIds_append, htail, List.append_nil]
    rw [hc1, hu1, hc2, hu2, hc3]
    exact map_range'_triple uuids u0 n1 n2 n3

/-- C9: under the model that the uuid stream never repeats (uuid4's
global uniqueness), every batch run submits pairwise-distinct record
identities; a second run over the same, unchanged sources — resuming
the stream where the first run left it — shares no identity with the
first; and the identities a travel run submits are a function of the
number of data rows only, not of any row's content. -/
theorem claim_C9_fresh_identities (tcfg bcfg icfg : FormCfg)
    (tvals bvals ivals : List (List String)) (thttp bhttp ihttp tcur bcur icur : Bool)
    (tfail bfail ifail : Nat → Bool) (uuids : Nat → String) (u0 : Nat)
    (hinj : Function.Injective uuids) :
    (callIds (process_all_data tcfg bcfg icfg tvals bvals ivals thttp bhttp ihttp tcur bcur
      icur tfail bfail ifail uuids u0).events).Nodup ∧
    (∀ x ∈ callIds (process_all_data tcfg bcfg icfg tvals bvals ivals thttp bhttp ihttp tcur
        bcur icur tfail bfail ifail uuids u0).events,
      x ∉ callIds (process_all_data tcfg bcfg icfg tvals bvals ivals thttp bhttp ihttp tcur
        bcur icur tfail bfail ifail uuids
        (process_all_data tcfg bcfg icfg tvals bvals ivals thttp bhttp ihttp tcur bcur icur
          tfail bfail ifail uuids u0).nextUuid).events) ∧
    (∀ (cfg : FormCfg) (hd1 hd2 : List String) (r1 r2 : List (List String))
        (storeFail : Nat → Bool) (u : Nat),
      cfg.sheetId ≠ "" → cfg.rangeName ≠ "" → r1.length = r2.length →
      callIds (process_travel_data cfg (hd1 :: r1) false false storeFail uuids u).events =
        callIds (process_travel_data cfg (hd2 :: r2) false false storeFail uuids u).events) := by
  obtain ⟨n, hn, hc⟩ := process_all_data_ids tcfg bcfg icfg tvals bvals ivals thttp bhttp
    ihttp tcur bcur icur tfail bfail ifail uuids u0
  obtain ⟨m, hm, hcm⟩ := process_all_data_ids tcfg bcfg icfg tvals bvals ivals thttp bhttp
    ihttp tcur bcur icur tfail bfail ifail uuids
    (process_all_data tcfg bcfg icfg tvals bvals ivals thttp bhttp ihttp tcur bcur icur
      tfail bfail ifail uuids u0).nextUuid
  refine ⟨?_, ?_, ?_⟩
  · rw [hc]
    exact (List.nodup_range' u0 n).map hinj
  · intro x hx hx'
    rw [hc] at hx
    rw [hcm, hn] at hx'
    obtain ⟨a, ha, hax⟩ := List.mem_map.1 hx
    obtain ⟨b, hb, hbx⟩ := List.mem_map.1 hx'
    have hab : a = b := hinj (hax.trans hbx.symm)
    rw [List.mem_range'_1] at ha hb
    omega
  · intro cfg hd1 hd2 r1 r2 storeFail u h1 h2 hlen
    have e1 := processor_good_callIds "process_travel_form" cfg.sheetId cfg.rangeName hd1 r1
      (travelArgsTail cfg) false storeFail uuids u h1 h2 (travelArgsTail_ok cfg)
    have e2 := processor_good_callIds "process_travel_form" cfg.sheetId cfg.rangeName hd2 r2
      (travelArgsTail cfg) false storeFail uuids u h1 h2 (travelArgsTail_ok cfg)
    simp only [process_travel_data]
    rw [e1, e2, hlen]

/-- Witness for C9: a concrete batch over one travel, one building and
one incident row, with an injective uuid stream — the submitted
identities are distinct, and the travel identities do not change when
the row content does. -/
theorem claim_C9_fresh_identities_witness :
    (callIds (process_all_data ⟨"t", "R"⟩ ⟨"b", "R"⟩ ⟨"i", "R"⟩ [["Name"], ["x"]]
      [["Building Name"], ["y"]] [["CSA ID"], ["z"]] false false false false false false
      (fun _ => false) (fun _ => false) (fun _ => false)
      (fun n => String.mk (List.replicate n 'a')) 0).events).Nodup ∧
    callIds (process_travel_data ⟨"t", "R"⟩ [["Name"], ["x"]] false false (fun _ => false)
        (fun n => String.mk (List.replicate n 'a')) 0).events =
      callIds (process_travel_data ⟨"t", "R"⟩ [["Name"], ["other content"]] false false
        (fun _ => false) (fun n => String.mk (List.replicate n 'a')) 0).events := by
  have hinj : Function.Injective (fun n => String.mk (List.replicate n 'a')) := by
    intro a b h
    have hlen := congrArg (fun s : String => s.data.length) h
    simpa using hlen
  have h := claim_C9_fresh_identities ⟨"t", "R"⟩ ⟨"b", "R"⟩ ⟨"i", "R"⟩ [["Name"], ["x"]]
    [["Building Name"], ["y"]] [["CSA ID"], ["z"]] false false false false false false
    (fun _ => false) (fun _ => false) (fun _ => false)
    (fun n => String.mk (List.replicate n 'a')) 0 hinj
  exact ⟨h.1, h.2.2 ⟨"t", "R"⟩ ["Name"] ["Name"] [["x"]] [["other content"]]
    (fun _ => false) 0 (by decide) (by decide) rfl⟩

end SheetsETL
